import Mathlib

/-!
Verification of the subtitle-construction core of `app.py`:
`create_subtitle_timestamps` (lines 38-51), `generate_srt_content`
(lines 53-60) and `generate_vtt_content` (lines 62-68).

Durations are modelled as non-negative integer microseconds: Python's
`datetime.timedelta(seconds=x)` normalizes its argument to a count of
days / seconds / microseconds, and every quantity the code derives from
the timedelta is a function of the total microsecond count.  Strings are
modelled as Lean `String` (a structure over `List Char`); Python's
`str.replace('.', ',')` with one-character pattern and replacement is
character-by-character substitution, and `s[:11]` takes the first 11
characters.
-/

/-- Decimal digit character, `digitChar d` is the character for `d < 10`
(mirrors the digits produced by Python's `%d` formatting). -/
def digitChar (d : Nat) : Char := Char.ofNat (48 + d)

/-- Fuel-indexed decimal rendering of a natural number, most significant
digit first.  With fuel above `n` this is the decimal numeral of `n`. -/
def natDigitsAux : Nat → Nat → List Char
  | 0, _ => []
  | fuel + 1, n =>
    if n < 10 then [digitChar n]
    else natDigitsAux fuel (n / 10) ++ [digitChar (n % 10)]

/-- Decimal numeral of `n`, as produced by Python's `"%d" % n` for a
non-negative `n`: no leading zeros, `0` rendered as `"0"`. -/
def natRepr (n : Nat) : List Char := natDigitsAux (n + 1) n

/-- Left-pad a character list with `'0'` up to width `w` (the padding
behaviour of Python's `"%0wd"` formatting). -/
def padZeros (w : Nat) (ds : List Char) : List Char :=
  List.replicate (w - ds.length) '0' ++ ds

/-- Python's `"%0wd" % n`: the decimal numeral of `n` zero-padded to
width `w`. -/
def fmt0 (w n : Nat) : List Char := padZeros w (natRepr n)

/-- The `H:MM:SS` part of `datetime.timedelta.__str__`: unpadded hours,
two-digit minutes and seconds, computed from the total microseconds `t`
exactly as the `divmod` chain in CPython's `timedelta.__str__` does. -/
def tdBase (t : Nat) : List Char :=
  natRepr (t / 1000000 % 86400 / 3600) ++
    ':' :: (fmt0 2 (t / 1000000 % 86400 / 60 % 60) ++
      ':' :: fmt0 2 (t / 1000000 % 86400 % 60))

/-- The `"%d day%s, "` prefix `timedelta.__str__` emits when the
normalized day count is non-zero. -/
def dayTag (days : Nat) : List Char :=
  natRepr days ++ (' ' :: 'd' :: 'a' :: 'y' :: []) ++
    (if days = 1 then [] else ['s']) ++ (',' :: ' ' :: [])

/-- Character data of `str(datetime.timedelta(...))` for a duration of
`t` microseconds: optional day prefix, `H:MM:SS`, and a `.%06d`
fractional part exactly when the microsecond remainder is non-zero. -/
def tdStrData (t : Nat) : List Char :=
  (if t / 1000000 / 86400 = 0 then tdBase t
   else dayTag (t / 1000000 / 86400) ++ tdBase t) ++
    (if t % 1000000 = 0 then [] else '.' :: fmt0 6 (t % 1000000))

/-- The string `str(datetime.timedelta(...))` for `t` microseconds. -/
def tdStr (t : Nat) : String := String.mk (tdStrData t)

/-- Python's `str.replace('.', ',')` acting on one character. -/
def replDot (c : Char) : Char := if c = '.' then ',' else c

/-- The timestamp expression of `app.py` line 47/48:
`str(datetime.timedelta(seconds=x)).replace('.', ',')[:11]`, for a
duration of `t` microseconds. -/
def format_timestamp (t : Nat) : String :=
  String.mk (((tdStrData t).map replDot).take 11)

/-- Modelled from the spec's words (§4.1): the natural library
duration-to-string rendering with the fractional-second separator `.`
replaced by `,`, hard-truncated to the first `cut` characters.  The
spec states `cut = 12`; the code uses `[:11]`. -/
def specRender (cut : Nat) (t : Nat) : String :=
  String.mk (((tdStr t).data.map replDot).take cut)

/-- Python's `str.strip()` whitespace test, restricted to the ASCII
whitespace characters (space, tab, newline, carriage return, vertical
tab, form feed). -/
def pyIsSpace (c : Char) : Bool :=
  c = ' ' || c = '\t' || c = '\n' || c = '\x0d' || c = '\x0b' || c = '\x0c'

/-- Python's `str.strip()`: drop leading and trailing whitespace. -/
def pyStrip (s : String) : String :=
  String.mk (((s.data.dropWhile pyIsSpace).reverse.dropWhile pyIsSpace).reverse)

/-- A recognition segment as consumed by `create_subtitle_timestamps`:
start and end offsets (microseconds; the Python dict keys `start` /
`end`, the latter renamed as `end` is a Lean keyword) and a text. -/
structure Segment where
  start : Nat
  stop : Nat
  text : String
deriving DecidableEq

/-- A subtitle cue as built by `create_subtitle_timestamps`: the dict
`{'index': i, 'start': ..., 'end': ..., 'text': ...}` (the `end` key is
called `stop` here). -/
structure Cue where
  index : Nat
  start : String
  stop : String
  text : String
deriving DecidableEq

/-- The loop body of `create_subtitle_timestamps` (app.py lines 41-50),
with `i` the running `enumerate(segments, 1)` counter. -/
def buildSubs : Nat → List Segment → List Cue
  | _, [] => []
  | i, seg :: rest =>
    { index := i,
      start := format_timestamp seg.start,
      stop := format_timestamp seg.stop,
      text := pyStrip seg.text } :: buildSubs (i + 1) rest

/-- `create_subtitle_timestamps` (app.py lines 38-51): one cue per
segment, indices counted from 1. -/
def create_subtitle_timestamps (segments : List Segment) : List Cue :=
  buildSubs 1 segments

/-- `generate_srt_content` (app.py lines 53-60): starting from the empty
string, append `f"{index}\n"`, `f"{start} --> {end}\n"`, `f"{text}\n\n"`
for each cue in order. -/
def generate_srt_content (subtitles : List Cue) : String :=
  subtitles.foldl
    (fun acc sub =>
      acc ++ (String.mk (natRepr sub.index) ++ "\n") ++
        (sub.start ++ " --> " ++ sub.stop ++ "\n") ++
        (sub.text ++ "\n\n"))
    ""

/-- `generate_vtt_content` (app.py lines 62-68): starting from
`"WEBVTT\n\n"`, append `f"{start} --> {end}\n"` and `f"{text}\n\n"` for
each cue in order. -/
def generate_vtt_content (subtitles : List Cue) : String :=
  subtitles.foldl
    (fun acc sub =>
      acc ++ (sub.start ++ " --> " ++ sub.stop ++ "\n") ++
        (sub.text ++ "\n\n"))
    "WEBVTT\n\n"

/-- The per-cue SRT block `"{index}\n{start} --> {end}\n{text}\n\n"`
named in the spec (§4.3). -/
def srtBlock (sub : Cue) : String :=
  String.mk (natRepr sub.index) ++ "\n" ++ sub.start ++ " --> " ++
    sub.stop ++ "\n" ++ sub.text ++ "\n\n"

/-- The per-cue VTT block `"{start} --> {end}\n{text}\n\n"` named in the
spec (§4.4). -/
def vttBlock (sub : Cue) : String :=
  sub.start ++ " --> " ++ sub.stop ++ "\n" ++ sub.text ++ "\n\n"

/-- Character lists made only of decimal digits. -/
def AllDigits (l : List Char) : Prop := ∀ c ∈ l, c.isDigit = true

/-- The spec's timestamp pattern (§8, C1): one or more digits, `:`, one
or more digits, `:`, one or more digits, `,`, exactly three digits. -/
def MatchesMs (s : String) : Prop :=
  ∃ a b c d : List Char,
    a ≠ [] ∧ b ≠ [] ∧ c ≠ [] ∧
    AllDigits a ∧ AllDigits b ∧ AllDigits c ∧ AllDigits d ∧
    d.length = 3 ∧
    s.data = a ++ ':' :: (b ++ ':' :: (c ++ ',' :: d))

/-- The comma-free time pattern: digits, `:`, digits, `:`, digits. -/
def MatchesPlain (s : String) : Prop :=
  ∃ a b c : List Char,
    a ≠ [] ∧ b ≠ [] ∧ c ≠ [] ∧
    AllDigits a ∧ AllDigits b ∧ AllDigits c ∧
    s.data = a ++ ':' :: (b ++ ':' :: c)

/-- The single cue of the spec's §8 examples. -/
def demoCue : Cue :=
  { index := 1, start := "00:00:01,000", stop := "00:00:02,500", text := "Hello" }

/-- The two-segment input of the spec's §8 example, in microseconds:
`[{0.0, 1.2, " hi "}, {1.2, 3.0, "there"}]`. -/
def demoSegs : List Segment :=
  [ { start := 0, stop := 1200000, text := " hi " },
    { start := 1200000, stop := 3000000, text := "there" } ]

theorem format_timestamp_smoke :
    format_timestamp 1500000 = "0:00:01,500" ∧
    format_timestamp 1000000 = "0:00:01" ∧
    format_timestamp 86400000000 = "1 day, 0:00" := by
  refine ⟨?_, ?_, ?_⟩ <;> decide

theorem string_foldl_append (l : List String) :
    ∀ init : String, l.foldl (fun r s => r ++ s) init = init ++ String.join l := by
  induction l with
  | nil => intro init; simp [String.join, String.append_empty]
  | cons a l ih =>
    intro init
    simp only [List.foldl_cons]
    rw [ih, show String.join (a :: l) = ("" ++ a) ++ String.join l from ih ("" ++ a),
      String.empty_append, String.append_assoc]

theorem string_join_cons (a : String) (l : List String) :
    String.join (a :: l) = a ++ String.join l := by
  rw [show String.join (a :: l) = ("" ++ a) ++ String.join l from
    string_foldl_append l ("" ++ a), String.empty_append]

theorem srt_foldl_eq (l : List Cue) :
    ∀ init : String,
      l.foldl
        (fun acc sub =>
          acc ++ (String.mk (natRepr sub.index) ++ "\n") ++
            (sub.start ++ " --> " ++ sub.stop ++ "\n") ++
            (sub.text ++ "\n\n"))
        init = init ++ String.join (l.map srtBlock) := by
  induction l with
  | nil => intro init; simp [String.join, String.append_empty]
  | cons a l ih =>
    intro init
    simp only [List.foldl_cons, List.map_cons]
    rw [ih, string_join_cons]
    simp [srtBlock, String.append_assoc]

theorem vtt_foldl_eq (l : List Cue) :
    ∀ init : String,
      l.foldl
        (fun acc sub =>
          acc ++ (sub.start ++ " --> " ++ sub.stop ++ "\n") ++
            (sub.text ++ "\n\n"))
        init = init ++ String.join (l.map vttBlock) := by
  induction l with
  | nil => intro init; simp [String.join, String.append_empty]
  | cons a l ih =>
    intro init
    simp only [List.foldl_cons, List.map_cons]
    rw [ih, string_join_cons]
    simp [vttBlock, String.append_assoc]

/-- C5: the SRT serializer's output is exactly the concatenation, per
cue in order, of the block `"{index}\n{start} --> {end}\n{text}\n\n"`,
and on the single §8 example cue it is exactly the expected string. -/
theorem c5_srt_is_block_concat :
    (∀ subs : List Cue,
      generate_srt_content subs = String.join (subs.map srtBlock)) ∧
    generate_srt_content [demoCue] =
      "1\n00:00:01,000 --> 00:00:02,500\nHello\n\n" := by
  constructor
  · intro subs
    rw [generate_srt_content, srt_foldl_eq, String.empty_append]
  · decide

/-- C6: the VTT serializer's output is exactly the header `"WEBVTT\n\n"`
followed by the concatenation, per cue in order, of
`"{start} --> {end}\n{text}\n\n"` (no index line), and on the single §8
example cue it is exactly the expected string. -/
theorem c6_vtt_is_header_and_blocks :
    (∀ subs : List Cue,
      generate_vtt_content subs = "WEBVTT\n\n" ++ String.join (subs.map vttBlock)) ∧
    generate_vtt_content [demoCue] =
      "WEBVTT\n\n00:00:01,000 --> 00:00:02,500\nHello\n\n" := by
  constructor
  · intro subs
    rw [generate_vtt_content, vtt_foldl_eq]
  · decide

/-- C7: on the empty cue sequence the SRT serializer returns the empty
string and the VTT serializer returns exactly `"WEBVTT\n\n"`. -/
theorem c7_empty_input :
    generate_srt_content [] = "" ∧ generate_vtt_content [] = "WEBVTT\n\n" :=
  ⟨rfl, rfl⟩

/-- C8: both serializers are deterministic pure functions — serializing
equal cue sequences (two runs on equal input) yields byte-identical
output, for SRT and for VTT. -/
theorem c8_serializers_deterministic (s1 s2 : List Cue) (h : s1 = s2) :
    generate_srt_content s1 = generate_srt_content s2 ∧
    generate_vtt_content s1 = generate_vtt_content s2 := by
  subst h; exact ⟨rfl, rfl⟩

theorem c8_witness :
    generate_srt_content [demoCue] = generate_srt_content [demoCue] ∧
    generate_vtt_content [demoCue] = generate_vtt_content [demoCue] :=
  c8_serializers_deterministic [demoCue] [demoCue] rfl

theorem matchesMs_comma_mem {s : String} (h : MatchesMs s) : ',' ∈ s.data := by
  obtain ⟨a, b, c, d, -, -, -, -, -, -, -, -, hs⟩ := h
  rw [hs]; simp

/-- C1 counterexample: at the whole-second duration 1.0 s (1000000 µs)
the formatter returns `"0:00:01"`, which contains no comma and so does
not match the pattern `digits:digits:digits,digits(3)` the claim
asserts for every non-negative duration. -/
theorem c1_counterexample :
    ¬ ((format_timestamp 1000000).length ≤ 12 ∧
        MatchesMs (format_timestamp 1000000)) := by
  rintro ⟨-, hm⟩
  exact absurd (matchesMs_comma_mem hm) (by decide)

/-- C2 counterexample: at 1.5 s (1500000 µs) the code's `[:11]`
truncation gives `"0:00:01,500"`, not the first-12-characters
truncation `"0:00:01,5000"` the claim describes. -/
theorem c2_counterexample :
    format_timestamp 1500000 ≠ specRender 12 1500000 := by
  decide

/-- C2 amended: the formatter equals the library rendering with `.`
replaced by `,` hard-truncated to the first 11 (not 12) characters; at
1.5 s this is `"0:00:01,500"`. -/
theorem c2_truncates_to_eleven :
    (∀ t : Nat, format_timestamp t = specRender 11 t) ∧
    format_timestamp 1500000 = "0:00:01,500" :=
  ⟨fun _ => rfl, by decide⟩

theorem c2_witness : format_timestamp 1500000 = specRender 11 1500000 :=
  c2_truncates_to_eleven.1 1500000

/-- C9 counterexample: 86400 s (one day) is a whole number of seconds,
yet the formatter's output `"1 day, 0:00"` contains a comma — the day
prefix of the library rendering defeats the claim's "no comma ever for
whole seconds". -/
theorem c9_counterexample :
    86400000000 % 1000000 = 0 ∧ ',' ∈ (format_timestamp 86400000000).data := by
  constructor
  · decide
  · decide

theorem buildSubs_length (S : List Segment) :
    ∀ i : Nat, (buildSubs i S).length = S.length := by
  induction S with
  | nil => intro i; rfl
  | cons a S ih => intro i; simp [buildSubs, ih]

theorem buildSubs_get_index (S : List Segment) :
    ∀ (i j : Nat) (h : j < (buildSubs i S).length),
      ((buildSubs i S).get ⟨j, h⟩).index = i + j := by
  induction S with
  | nil => intro i j h; simp [buildSubs] at h
  | cons a S ih =>
    intro i j h
    cases j with
    | zero => rfl
    | succ j =>
      have hj : j < (buildSubs (i + 1) S).length := by
        simpa [buildSubs] using h
      show ((buildSubs (i + 1) S).get ⟨j, hj⟩).index = i + (j + 1)
      rw [ih (i + 1) j hj]
      omega

theorem buildSubs_get_text (S : List Segment) :
    ∀ (i j : Nat) (h1 : j < S.length) (h2 : j < (buildSubs i S).length),
      ((buildSubs i S).get ⟨j, h2⟩).text = pyStrip ((S.get ⟨j, h1⟩).text) := by
  induction S with
  | nil => intro i j h1 h2; simp at h1
  | cons a S ih =>
    intro i j h1 h2
    cases j with
    | zero => rfl
    | succ j =>
      have hj1 : j < S.length := by simpa using h1
      have hj2 : j < (buildSubs (i + 1) S).length := by
        simpa [buildSubs] using h2
      show ((buildSubs (i + 1) S).get ⟨j, hj2⟩).text =
        pyStrip ((S.get ⟨j, hj1⟩).text)
      exact ih (i + 1) j hj1 hj2

/-- C3: the cue builder returns one cue per segment (same length, no
filtering or merging) and the cue at 0-based position `j` carries the
1-based index `j + 1`. -/
theorem c3_cue_indices (S : List Segment) (j : Nat)
    (h : j < (create_subtitle_timestamps S).length) :
    (create_subtitle_timestamps S).length = S.length ∧
    ((create_subtitle_timestamps S).get ⟨j, h⟩).index = j + 1 := by
  refine ⟨buildSubs_length S 1, ?_⟩
  have hx := buildSubs_get_index S 1 j h
  rw [Nat.add_comm] at hx
  exact hx

theorem c3_witness :
    (create_subtitle_timestamps demoSegs).length = demoSegs.length ∧
    ((create_subtitle_timestamps demoSegs).get ⟨1, by decide⟩).index = 1 + 1 :=
  c3_cue_indices demoSegs 1 (by decide)

/-- C4: the cue at position `j` has the text of segment `j` with
leading and trailing whitespace stripped. -/
theorem c4_cue_text (S : List Segment) (j : Nat)
    (h1 : j < S.length) (h2 : j < (create_subtitle_timestamps S).length) :
    ((create_subtitle_timestamps S).get ⟨j, h2⟩).text =
      pyStrip ((S.get ⟨j, h1⟩).text) :=
  buildSubs_get_text S 1 j h1 h2

theorem c4_witness :
    ((create_subtitle_timestamps demoSegs).get ⟨0, by decide⟩).text =
      pyStrip ((demoSegs.get ⟨0, by decide⟩).text) :=
  c4_cue_text demoSegs 0 (by decide) (by decide)

theorem digitChar_isDigit {d : Nat} (h : d < 10) : (digitChar d).isDigit = true := by
  interval_cases d <;> decide

theorem natDigitsAux_stable (n : Nat) :
    ∀ f g : Nat, n < f → n < g → natDigitsAux f n = natDigitsAux g n := by
  induction n using Nat.strong_induction_on with
  | _ n ih =>
    intro f g hf hg
    match f, g with
    | 0, _ => omega
    | _ + 1, 0 => omega
    | f + 1, g + 1 =>
      by_cases h10 : n < 10
      · simp [natDigitsAux, h10]
      · have hdiv : n / 10 < n := Nat.div_lt_self (by omega) (by omega)
        simp only [natDigitsAux, if_neg h10]
        rw [ih (n / 10) hdiv f g (by omega) (by omega)]

theorem natRepr_of_lt {n : Nat} (h : n < 10) : natRepr n = [digitChar n] := by
  simp [natRepr, natDigitsAux, h]

theorem natRepr_step {n : Nat} (h : 10 ≤ n) :
    natRepr n = natRepr (n / 10) ++ [digitChar (n % 10)] := by
  have hdiv : n / 10 < n := Nat.div_lt_self (by omega) (by omega)
  show natDigitsAux (n + 1) n = _
  simp only [natDigitsAux, if_neg (by omega : ¬ n < 10)]
  rw [natDigitsAux_stable (n / 10) n (n / 10 + 1) (by omega) (by omega)]
  rfl

theorem natRepr_ne_nil (n : Nat) : natRepr n ≠ [] := by
  by_cases h : n < 10
  · rw [natRepr_of_lt h]; simp
  · rw [natRepr_step (by omega)]; simp

theorem natRepr_all_digit (n : Nat) : AllDigits (natRepr n) := by
  induction n using Nat.strong_induction_on with
  | _ n ih =>
    by_cases h : n < 10
    · rw [natRepr_of_lt h]
      intro c hc
      rw [List.mem_singleton] at hc
      subst hc
      exact digitChar_isDigit h
    · rw [natRepr_step (by omega)]
      intro c hc
      rcases List.mem_append.mp hc with h1 | h2
      · exact ih (n / 10) (Nat.div_lt_self (by omega) (by omega)) c h1
      · rw [List.mem_singleton] at h2
        subst h2
        exact digitChar_isDigit (Nat.mod_lt _ (by omega))

theorem natRepr_length_le (n : Nat) :
    ∀ k : Nat, 1 ≤ k → n < 10 ^ k → (natRepr n).length ≤ k := by
  induction n using Nat.strong_induction_on with
  | _ n ih =>
    intro k hk hn
    by_cases h : n < 10
    · rw [natRepr_of_lt h]
      simpa using hk
    · match k with
      | 1 =>
        exfalso
        have : (10:Nat) ^ 1 = 10 := by norm_num
        omega
      | k + 2 =>
        have hdiv : n / 10 < 10 ^ (k + 1) := by
          rw [Nat.div_lt_iff_lt_mul (by omega : (0:Nat) < 10)]
          have : (10:Nat) ^ (k + 2) = 10 ^ (k + 1) * 10 := by ring
          omega
        have hlt : n / 10 < n := Nat.div_lt_self (by omega) (by omega)
        have := ih (n / 10) hlt (k + 1) (by omega) hdiv
        rw [natRepr_step (by omega)]
        simp only [List.length_append, List.length_singleton]
        omega

theorem fmt0_two {n : Nat} (h : n < 100) :
    ∃ a b : Char, fmt0 2 n = [a, b] ∧ a.isDigit = true ∧ b.isDigit = true := by
  by_cases h10 : n < 10
  · refine ⟨'0', digitChar n, ?_, by decide, digitChar_isDigit h10⟩
    rw [fmt0, natRepr_of_lt h10]
    rfl
  · have hd : n / 10 < 10 := by omega
    refine ⟨digitChar (n / 10), digitChar (n % 10), ?_,
      digitChar_isDigit hd, digitChar_isDigit (Nat.mod_lt _ (by omega))⟩
    rw [fmt0, natRepr_step (by omega), natRepr_of_lt hd]
    rfl

theorem list_len_six (l : List Char) (h : l.length = 6) :
    ∃ a b c d e f : Char, l = [a, b, c, d, e, f] := by
  match l with
  | [] | [_] | [_, _] | [_, _, _] | [_, _, _, _] | [_, _, _, _, _] =>
    simp at h
  | a :: b :: c :: d :: e :: f :: rest =>
    have hr : rest = [] := by
      simp only [List.length_cons] at h
      exact List.eq_nil_of_length_eq_zero (by omega)
    exact ⟨a, b, c, d, e, f, by rw [hr]⟩

theorem fmt0_six {n : Nat} (h : n < 1000000) :
    ∃ u1 u2 u3 u4 u5 u6 : Char,
      fmt0 6 n = [u1, u2, u3, u4, u5, u6] ∧
      AllDigits [u1, u2, u3, u4, u5, u6] := by
  have hp : (10:Nat) ^ 6 = 1000000 := by norm_num
  have hlen : (natRepr n).length ≤ 6 := natRepr_length_le n 6 (by omega) (by omega)
  have hlen6 : (fmt0 6 n).length = 6 := by
    rw [fmt0, padZeros]
    simp only [List.length_append, List.length_replicate]
    omega
  have hdig : AllDigits (fmt0 6 n) := by
    intro c hc
    rw [fmt0, padZeros] at hc
    rcases List.mem_append.mp hc with h1 | h2
    · rw [List.eq_of_mem_replicate h1]; decide
    · exact natRepr_all_digit n c h2
  obtain ⟨a, b, c, d, e, f, hl⟩ := list_len_six _ hlen6
  exact ⟨a, b, c, d, e, f, hl, by rw [← hl]; exact hdig⟩

theorem repl_digit {c : Char} (h : c.isDigit = true) : replDot c = c := by
  rw [replDot, if_neg]
  intro hc
  subst hc
  exact absurd h (by decide)

theorem map_replDot_of_digits {l : List Char} (h : AllDigits l) :
    l.map replDot = l := by
  induction l with
  | nil => rfl
  | cons a l ih =>
    rw [List.map_cons, repl_digit (h a (by simp)),
      ih (fun c hc => h c (by simp [hc]))]

theorem format_timestamp_frac_eq {t : Nat} (h10 : t < 36000000000)
    (hm : t % 1000000 ≠ 0) :
    ∃ h0 m1 m2 s1 s2 u1 u2 u3 : Char,
      h0.isDigit = true ∧ m1.isDigit = true ∧ m2.isDigit = true ∧
      s1.isDigit = true ∧ s2.isDigit = true ∧
      u1.isDigit = true ∧ u2.isDigit = true ∧ u3.isDigit = true ∧
      (format_timestamp t).data =
        [h0, ':', m1, m2, ':', s1, s2, ',', u1, u2, u3] := by
  have hdays : t / 1000000 / 86400 = 0 := by omega
  have hmod : t / 1000000 % 86400 = t / 1000000 := by omega
  have hhh : t / 1000000 % 86400 / 3600 < 10 := by omega
  obtain ⟨m1, m2, hm12, hm1, hm2⟩ :=
    fmt0_two (show t / 1000000 % 86400 / 60 % 60 < 100 by omega)
  obtain ⟨s1, s2, hs12, hs1, hs2⟩ :=
    fmt0_two (show t / 1000000 % 86400 % 60 < 100 by omega)
  obtain ⟨u1, u2, u3, u4, u5, u6, hu6, hall⟩ :=
    fmt0_six (show t % 1000000 < 1000000 by omega)
  refine ⟨digitChar (t / 1000000 % 86400 / 3600), m1, m2, s1, s2, u1, u2, u3,
    digitChar_isDigit hhh, hm1, hm2, hs1, hs2,
    hall u1 (by simp), hall u2 (by simp), hall u3 (by simp), ?_⟩
  show ((tdStrData t).map replDot).take 11 = _
  rw [tdStrData, if_pos hdays, if_neg hm, tdBase,
    natRepr_of_lt hhh, hm12, hs12, hu6]
  simp only [List.map_append, List.map_cons, List.map_nil,
    List.cons_append, List.nil_append]
  rw [repl_digit (digitChar_isDigit hhh), repl_digit hm1, repl_digit hm2,
    repl_digit hs1, repl_digit hs2,
    repl_digit (hall u1 (by simp)), repl_digit (hall u2 (by simp)),
    repl_digit (hall u3 (by simp)), repl_digit (hall u4 (by simp)),
    repl_digit (hall u5 (by simp)), repl_digit (hall u6 (by simp)),
    (by decide : replDot ':' = ':'), (by decide : replDot '.' = ',')]
  rfl

theorem format_timestamp_whole_eq {t : Nat} (h24 : t < 86400000000)
    (hm : t % 1000000 = 0) :
    ∃ (hrs : List Char) (m1 m2 s1 s2 : Char),
      hrs ≠ [] ∧ AllDigits hrs ∧ hrs.length ≤ 2 ∧
      m1.isDigit = true ∧ m2.isDigit = true ∧
      s1.isDigit = true ∧ s2.isDigit = true ∧
      (format_timestamp t).data =
        hrs ++ ':' :: m1 :: m2 :: ':' :: s1 :: s2 :: [] := by
  have hdays : t / 1000000 / 86400 = 0 := by omega
  have hhh : t / 1000000 % 86400 / 3600 < 100 := by omega
  have hp2 : (10:Nat) ^ 2 = 100 := by norm_num
  obtain ⟨m1, m2, hm12, hm1, hm2⟩ :=
    fmt0_two (show t / 1000000 % 86400 / 60 % 60 < 100 by omega)
  obtain ⟨s1, s2, hs12, hs1, hs2⟩ :=
    fmt0_two (show t / 1000000 % 86400 % 60 < 100 by omega)
  refine ⟨natRepr (t / 1000000 % 86400 / 3600), m1, m2, s1, s2,
    natRepr_ne_nil _, natRepr_all_digit _,
    natRepr_length_le _ 2 (by omega) (by omega),
    hm1, hm2, hs1, hs2, ?_⟩
  show ((tdStrData t).map replDot).take 11 = _
  rw [tdStrData, if_pos hdays, if_pos hm, List.append_nil, tdBase,
    hm12, hs12]
  simp only [List.map_append, List.map_cons, List.map_nil,
    List.cons_append, List.nil_append]
  rw [map_replDot_of_digits (natRepr_all_digit _),
    repl_digit hm1, repl_digit hm2, repl_digit hs1, repl_digit hs2,
    (by decide : replDot ':' = ':')]
  rw [List.take_of_length_le]
  simp only [List.length_append, List.length_cons, List.length_nil]
  have := natRepr_length_le (t / 1000000 % 86400 / 3600) 2 (by omega) (by omega)
  omega

theorem allDigits_single {a : Char} (ha : a.isDigit = true) :
    AllDigits [a] := by
  intro c hc
  rw [List.mem_singleton] at hc
  subst hc
  exact ha

theorem allDigits_pair {a b : Char} (ha : a.isDigit = true)
    (hb : b.isDigit = true) : AllDigits [a, b] := by
  intro c hc
  simp only [List.mem_cons, List.not_mem_nil, or_false] at hc
  rcases hc with h | h <;> subst h <;> assumption

theorem allDigits_triple {a b c : Char} (ha : a.isDigit = true)
    (hb : b.isDigit = true) (hc : c.isDigit = true) : AllDigits [a, b, c] := by
  intro x hx
  simp only [List.mem_cons, List.not_mem_nil, or_false] at hx
  rcases hx with h | h | h <;> subst h <;> assumption

/-- C1 amended: for non-negative durations below 10 hours the formatter
output has length at most 12 and matches `digits:digits:digits,digits(3)`
when the fractional-second part is non-zero, and the comma-free
`digits:digits:digits` when the duration is a whole number of seconds. -/
theorem c1_pattern_below_ten_hours (t : Nat) (h : t < 36000000000) :
    (format_timestamp t).length ≤ 12 ∧
    (t % 1000000 ≠ 0 → MatchesMs (format_timestamp t)) ∧
    (t % 1000000 = 0 → MatchesPlain (format_timestamp t)) := by
  by_cases hm : t % 1000000 = 0
  · obtain ⟨hrs, m1, m2, s1, s2, hne, hdig, hlen, hm1, hm2, hs1, hs2, hdata⟩ :=
      format_timestamp_whole_eq (by omega) hm
    refine ⟨?_, fun hc => absurd hm hc, fun _ => ?_⟩
    · show (format_timestamp t).data.length ≤ 12
      rw [hdata]
      simp only [List.length_append, List.length_cons, List.length_nil]
      omega
    · exact ⟨hrs, [m1, m2], [s1, s2], hne, by simp, by simp, hdig,
        allDigits_pair hm1 hm2, allDigits_pair hs1 hs2, hdata⟩
  · obtain ⟨h0, m1, m2, s1, s2, u1, u2, u3, d1, d2, d3, d4, d5, d6, d7, d8, hdata⟩ :=
      format_timestamp_frac_eq h hm
    refine ⟨?_, fun _ => ?_, fun hc => absurd hc hm⟩
    · show (format_timestamp t).data.length ≤ 12
      rw [hdata]
      simp only [List.length_cons, List.length_nil]
      omega
    · exact ⟨[h0], [m1, m2], [s1, s2], [u1, u2, u3], by simp, by simp, by simp,
        allDigits_single d1, allDigits_pair d2 d3, allDigits_pair d4 d5,
        allDigits_triple d6 d7 d8, rfl, hdata⟩

theorem c1_witness : MatchesMs (format_timestamp 1500000) :=
  (c1_pattern_below_ten_hours 1500000 (by decide)).2.1 (by decide)

/-- C9 amended: for whole-second durations below one day the formatter
output contains no comma (hence no millisecond group) and has at most 8
characters; at exactly one day the day prefix reintroduces a comma. -/
theorem c9_whole_seconds_no_comma (t : Nat) (h1 : t < 86400000000)
    (h2 : t % 1000000 = 0) :
    ',' ∉ (format_timestamp t).data ∧ (format_timestamp t).length ≤ 8 := by
  obtain ⟨hrs, m1, m2, s1, s2, hne, hdig, hlen, hm1, hm2, hs1, hs2, hdata⟩ :=
    format_timestamp_whole_eq h1 h2
  constructor
  · rw [hdata]
    intro hmem
    rcases List.mem_append.mp hmem with hin | hin
    · exact absurd (hdig _ hin) (by decide)
    · simp only [List.mem_cons, List.not_mem_nil, or_false] at hin
      rcases hin with hx | hx | hx | hx | hx | hx
      · exact absurd hx (by decide)
      · rw [← hx] at hm1; exact absurd hm1 (by decide)
      · rw [← hx] at hm2; exact absurd hm2 (by decide)
      · exact absurd hx (by decide)
      · rw [← hx] at hs1; exact absurd hs1 (by decide)
      · rw [← hx] at hs2; exact absurd hs2 (by decide)
  · show (format_timestamp t).data.length ≤ 8
    rw [hdata]
    simp only [List.length_append, List.length_cons, List.length_nil]
    omega

theorem c9_witness :
    ',' ∉ (format_timestamp 1000000).data ∧
    (format_timestamp 1000000).length ≤ 8 :=
  c9_whole_seconds_no_comma 1000000 (by decide) (by decide)

/-- C10: for durations below 10 hours with a non-zero fractional-second
part the output is exactly 11 characters: a single unpadded hour digit,
`:`, two minute digits, `:`, two second digits, `,`, and exactly three
millisecond digits. -/
theorem c10_frac_eleven_chars (t : Nat) (h1 : t < 36000000000)
    (h2 : t % 1000000 ≠ 0) :
    (format_timestamp t).length = 11 ∧
    ∃ h0 m1 m2 s1 s2 u1 u2 u3 : Char,
      h0.isDigit = true ∧ m1.isDigit = true ∧ m2.isDigit = true ∧
      s1.isDigit = true ∧ s2.isDigit = true ∧
      u1.isDigit = true ∧ u2.isDigit = true ∧ u3.isDigit = true ∧
      (format_timestamp t).data =
        [h0, ':', m1, m2, ':', s1, s2, ',', u1, u2, u3] := by
  obtain ⟨h0, m1, m2, s1, s2, u1, u2, u3, d1, d2, d3, d4, d5, d6, d7, d8, hdata⟩ :=
    format_timestamp_frac_eq h1 h2
  refine ⟨?_, h0, m1, m2, s1, s2, u1, u2, u3, d1, d2, d3, d4, d5, d6, d7, d8, hdata⟩
  show (format_timestamp t).data.length = 11
  rw [hdata]
  rfl

theorem c10_witness : (format_timestamp 1500000).length = 11 :=
  (c10_frac_eleven_chars 1500000 (by decide) (by decide)).1
